import Mathlib

/-!
Verification of the firenews extraction-and-classification pipeline.

Definitions are shallow embeddings of the Python sources
`backend/app/apis/scraping_control/__init__.py` and
`backend/app/apis/fires/__init__.py`.  Python `str` values are Lean
`String`s; Python floats carrying confidence scores and coordinates are
modelled as exact rationals `ℚ` (all values arising here are short decimal
literals and sums thereof, on which float and rational arithmetic order
the same way); Python `re` patterns that occur in the source are embedded
as executable matching functions specialised to those fixed patterns.
-/

/-- Python `str.lower` restricted to the alphabets occurring in this
program: ASCII letters plus the Latin-1 uppercase range (À..Þ, excluding
×).  Arabic letters have no case and are unchanged, as in Python. -/
def pyToLower (c : Char) : Char :=
  if 0xC0 ≤ c.toNat ∧ c.toNat ≤ 0xDE ∧ c.toNat ≠ 0xD7 then Char.ofNat (c.toNat + 0x20)
  else c.toLower

/-- Python `str.lower` on a whole string. -/
def pyLower (s : String) : String :=
  String.mk (s.toList.map pyToLower)

/-- Characters treated as whitespace by Python's `str.strip`/`str.split`
(ASCII whitespace plus the no-break space U+00A0; the rarer Unicode space
characters do not occur in the sources or in any input considered here). -/
def isPySpace (c : Char) : Bool :=
  c == ' ' || c == '\t' || c == '\n' || c == '\r' || c.toNat == 11 || c.toNat == 12 ||
    c.toNat == 0xA0

/-- Python `str.strip` (no arguments): remove leading and trailing whitespace. -/
def pyStrip (s : String) : String :=
  String.mk (((s.toList.dropWhile isPySpace).reverse.dropWhile isPySpace).reverse)

/-- Python `str.split` (no arguments): split on runs of whitespace,
discarding empty fields. -/
def pySplitGo : List Char → List Char → List String
  | [], acc => if acc.isEmpty then [] else [String.mk acc.reverse]
  | c :: cs, acc =>
    if isPySpace c then
      (if acc.isEmpty then pySplitGo cs [] else String.mk acc.reverse :: pySplitGo cs [])
    else pySplitGo cs (c :: acc)

def pySplit (s : String) : List String :=
  pySplitGo s.toList []

/-- `needle` occurs as a contiguous substring of `hay` (Python's `needle in hay`). -/
def listContainsSub (needle hay : List Char) : Bool :=
  (List.range (hay.length + 1)).any (fun i => List.isPrefixOf needle (hay.drop i))

/-- Python `needle in hay` on strings. -/
def strContains (hay needle : String) : Bool :=
  listContainsSub needle.toList hay.toList

/-- Word characters for Python's Unicode `\b` / `\w`, restricted to the
alphabets occurring in this program: ASCII alphanumerics and underscore,
Latin letters with diacritics (U+00C0..U+024F minus × and ÷), and the
Arabic letter block (U+0620..U+064A). -/
def isWordChar (c : Char) : Bool :=
  c.isAlphanum || c == '_' ||
    (0xC0 ≤ c.toNat && c.toNat ≤ 0x24F && !(c.toNat == 0xD7) && !(c.toNat == 0xF7)) ||
    (0x620 ≤ c.toNat && c.toNat ≤ 0x64A)

/-- There is a word-boundary-delimited occurrence of `p` in `t`:
`re.findall(r'\b' + re.escape(p) + r'\b', t) != []`.  Faithful for the
patterns used by the source, whose first and last characters are always
word characters. -/
def wbMatchList (p t : List Char) : Bool :=
  !p.isEmpty && (List.range (t.length + 1)).any (fun i =>
    List.isPrefixOf p (t.drop i) &&
    (i == 0 || !isWordChar (t.getD (i - 1) ' ')) &&
    (t.length ≤ i + p.length || !isWordChar (t.getD (i + p.length) ' ')))

def wbMatchStr (p t : String) : Bool :=
  wbMatchList p.toList t.toList

/-- Helper for the fixed regexes of `is_fire_related_advanced`:
`.*(?:w₁|…|wₙ)` matches the given tail, i.e. some `wᵢ` occurs at or after
the current position with no newline before it (`.` does not match `\n`). -/
def dotStarThen (targets : List (List Char)) : List Char → Bool
  | [] => targets.any (fun w => w.isEmpty)
  | c :: cs =>
    targets.any (fun w => List.isPrefixOf w (c :: cs)) || (!(c == '\n') && dotStarThen targets cs)

/-- `re.search` of `(?:a₁|…)(?:.*)(?:b₁|…)` : some first-set word occurs,
followed (newline-free) by some second-set word. -/
def seqPat (firsts seconds : List (List Char)) : List Char → Bool
  | [] => false
  | c :: cs =>
    (firsts.any (fun w =>
        List.isPrefixOf w (c :: cs) && dotStarThen seconds ((c :: cs).drop w.length))) ||
      seqPat firsts seconds cs

/-- Unit alternatives of the first fire pattern, `(hectares?|km²|kilometres?)`
(the optional `s` expands into two alternatives each). -/
def unitAlts : List (List Char) :=
  ["hectares".toList, "hectare".toList, "km²".toList, "kilometres".toList, "kilometre".toList]

def burnTargets : List (List Char) :=
  ["brûlé".toList, "burned".toList, "détruit".toList]

/-- After `\d+` has been entered at a digit, consume the remaining digits
and whitespace, then require a unit alternative followed by `.*` and a
burn target (pattern `\d+\s*(hectares?|km²|kilometres?).*(?:brûlé|burned|détruit)`;
the maximal-munch treatment of `\d+\s*` is equivalent to backtracking here
because no unit alternative starts with a digit or a space). -/
def unitThenTarget (rest : List Char) : Bool :=
  let rest2 := rest.dropWhile isPySpace
  unitAlts.any (fun u => List.isPrefixOf u rest2 && dotStarThen burnTargets (rest2.drop u.length))

def firePattern1 : List Char → Bool
  | [] => false
  | c :: cs => (c.isDigit && unitThenTarget ((c :: cs).dropWhile Char.isDigit)) || firePattern1 cs

def firePattern2 (t : List Char) : Bool :=
  seqPat ["incendie".toList, "fire".toList]
    ["maîtrisé".toList, "controlled".toList, "contained".toList] t

def firePattern3 (t : List Char) : Bool :=
  seqPat ["pompiers".toList, "firefighters".toList]
    ["intervenu".toList, "responded".toList] t

/-- Sum of `w` for every keyword of `kws` contained in `textLower`
(each keyword counted once, as in the source's per-keyword loop). -/
def keywordScore (textLower : String) (kws : List String) (w : Int) : Int :=
  kws.foldl (fun s k => if strContains textLower k then s + w else s) 0

def critical_keywords : List String :=
  ["incendie", "feu", "brasier", "flammes", "brûle", "embrasement",
   "fire", "blaze", "wildfire", "forest fire", "brush fire",
   "حريق", "نار", "حرائق"]

def medium_keywords : List String :=
  ["pompiers", "firefighters", "protection civile", "evacuation",
   "smoke", "fumée", "burnt", "burned", "combustion",
   "إطفاء", "دخان"]

def context_keywords : List String :=
  ["hectares", "forêt", "forest", "vegetation", "houses destroyed",
   "maisons détruites", "emergency", "urgence", "alert", "alerte"]

def exclusion_keywords : List String :=
  ["gunfire", "ceasefire", "fired from job", "firing squad",
   "movie", "film", "cinema", "game", "jeu", "match",
   "years ago", "historical", "anniversary"]

/-- Total weighted score of `is_fire_related_advanced`. -/
def fireScore (textLower : String) : Int :=
  keywordScore textLower critical_keywords 3 +
    keywordScore textLower medium_keywords 2 +
    keywordScore textLower context_keywords 1 +
    keywordScore textLower exclusion_keywords (-5) +
    (if firePattern1 textLower.toList then 2 else 0) +
    (if firePattern2 textLower.toList then 2 else 0) +
    (if firePattern3 textLower.toList then 2 else 0)

/-- `is_fire_related_advanced` from `scraping_control`: weighted keyword and
pattern scoring with a minimum-length gate. -/
def is_fire_related_advanced (text : String) : Bool :=
  if text.isEmpty || text.length < 10 then false
  else decide (3 ≤ fireScore (pyLower text))

/-- The optional enrichment fields an AI result may carry (§ the
`ai_result` mapping read by `get_active_fires`). -/
structure AiResult where
  fire_type : Option String
  casualties : Option String
  emergency_services : Option String
  affected_area : Option String
  cause : Option String
  weather_conditions : Option String
  evacuation_info : Option String
  damage_assessment : Option String
  date_mentioned : Option String
deriving DecidableEq, Repr

/-- A candidate article record, as built by the three extraction
strategies of `scrape_custom_source`.  All fields the pipeline writes are
present (`confidence` defaults such as `x.get('confidence', 0.5)` never
trigger for pipeline-produced articles). -/
structure Article where
  title : String
  link : String
  summary : String
  content : String
  published : String
  source : String
  confidence : ℚ
  ai_enhanced : Bool
  ai_result : Option AiResult := none
deriving DecidableEq, Repr

/-- Source configuration fields used by the extractor. -/
structure SourceConfig where
  name : String
  url : String
deriving DecidableEq, Repr

/-- Models `urllib.parse.urljoin` for the reference shapes arising here:
an absolute URL replaces the base, an empty URL yields the base; other
relative references are resolved approximately (no claim inspects them). -/
def urljoin (base url : String) : String :=
  if url = "" then base
  else if String.isPrefixOf "http://" url || String.isPrefixOf "https://" url then url
  else base ++ url

/-- Python `s[:200]`. -/
def pyTake200 (s : String) : String :=
  String.mk (s.toList.take 200)

/-- `create_article_object` from `scraping_control`: rejects titles that
are empty or shorter than 10 characters, then stores the *stripped* title
(the length check happens on the unstripped input). -/
def create_article_object (title link source_name : String) : Option Article :=
  if title.isEmpty || title.length < 10 then none
  else some
    { title := pyStrip title
      link := link
      summary := "Fire-related news from " ++ source_name
      published := "Recent"
      source := source_name
      confidence := 8 / 10
      ai_enhanced := false
      content := title }

/-- Strategy 1 of `scrape_custom_source` (custom selectors), at the level
of the raw text/link pairs of matching nodes.  The source collects each
node's text with `node.text(strip=True)`; selectolax strips every text
part with Python's `str.strip()`, so the collected text carries no
leading or trailing whitespace — modelled by applying `pyStrip` to the
raw node text.  Keep texts longer than 20 characters that form a valid
article object and pass the relevance scorer. -/
def selectorScan (texts : List (String × String)) (source_name : String) : List Article :=
  texts.filterMap (fun p =>
    let text := pyStrip p.1
    if !text.isEmpty && 20 < text.length then
      match create_article_object text p.2 source_name with
      | some a => if is_fire_related_advanced text then some a else none
      | none => none
    else none)

/-- Parsed JSON-LD payload fields accessed by `extract_json_ld_articles`. -/
structure JsonLdData where
  atType : Option String := none
  headline : Option String := none
  nameField : Option String := none
  urlField : Option String := none
  description : Option String := none
  datePublished : Option String := none
  dateModified : Option String := none
  dateCreated : Option String := none
deriving DecidableEq, Repr

/-- One `<script type="application/ld+json">` block: either malformed JSON
(`json.JSONDecodeError`, skipped), a single object, or a top-level list
(of which the first element is taken, `{}` when empty). -/
inductive JsonLdScript where
  | malformed : JsonLdScript
  | single : JsonLdData → JsonLdScript
  | array : List JsonLdData → JsonLdScript
deriving DecidableEq, Repr

/-- Models `datetime.fromisoformat(v.replace('Z','+00:00')).strftime('%Y-%m-%d %H:%M')`
together with its `except` fallback (return the raw value): implemented
for the canonical `YYYY-MM-DDTHH:MM…` and bare `YYYY-MM-DD` shapes, raw
otherwise.  No claim exercises this reformatting. -/
def formatIsoDate (v : String) : String :=
  let cs := v.toList
  let dateOk := decide (10 ≤ cs.length) && (cs.take 4).all Char.isDigit &&
    cs.getD 4 ' ' == '-' && ((cs.drop 5).take 2).all Char.isDigit &&
    cs.getD 7 ' ' == '-' && ((cs.drop 8).take 2).all Char.isDigit
  if dateOk && cs.length == 10 then v ++ " 00:00"
  else if dateOk && decide (16 ≤ cs.length) &&
      (cs.getD 10 ' ' == 'T' || cs.getD 10 ' ' == ' ') &&
      ((cs.drop 11).take 2).all Char.isDigit && cs.getD 13 ' ' == ':' &&
      ((cs.drop 14).take 2).all Char.isDigit then
    String.mk (cs.take 10) ++ " " ++ String.mk ((cs.drop 11).take 5)
  else v

/-- `extract_date` from `scraping_control`: first truthy of
`datePublished`, `dateModified`, `dateCreated`, reformatted; else `"Recent"`. -/
def extract_date (d : JsonLdData) : String :=
  match [d.datePublished, d.dateModified, d.dateCreated].find?
      (fun o => match o with | some v => !(v == "") | none => false) with
  | some (some v) => formatIsoDate v
  | _ => "Recent"

/-- Python's `data.get('headline') or data.get('name', '')`. -/
def jsonLdTitle (d : JsonLdData) : String :=
  match d.headline with
  | some h => if h == "" then (d.nameField.getD "") else h
  | none => d.nameField.getD ""

/-- `extract_json_ld_articles` from `scraping_control`, at the level of
the decoded script payloads: accept `NewsArticle`/`Article` entries whose
title passes the relevance scorer; prior confidence 0.9. -/
def extract_json_ld_articles (scripts : List JsonLdScript) (cfg : SourceConfig) :
    List Article :=
  scripts.filterMap (fun s =>
    let d? : Option JsonLdData :=
      match s with
      | .malformed => none
      | .single d => some d
      | .array ds => some (ds.headD {})
    match d? with
    | none => none
    | some d =>
      if d.atType == some "NewsArticle" || d.atType == some "Article" then
        let title := jsonLdTitle d
        let summary := pyTake200 (d.description.getD "")
        if !(title == "") && is_fire_related_advanced title then
          some
            { title := title
              link := urljoin cfg.url (d.urlField.getD cfg.url)
              summary := summary
              content := title ++ " " ++ summary
              published := extract_date d
              source := cfg.name
              confidence := 9 / 10
              ai_enhanced := false }
        else none
      else none)

/-- An article-like container as seen by `auto_detect_articles`: the
(stripped) text of its first heading-like node, the `href` of its first
anchor, and the (stripped) text of its first paragraph-like node. -/
structure Container where
  titleText : Option String := none
  linkHref : Option String := none
  summaryText : Option String := none
deriving DecidableEq, Repr

/-- `auto_detect_articles` from `scraping_control`, at the level of the
detected containers: require a heading text longer than 15 characters
passing the relevance scorer; prior confidence 0.7. -/
def auto_detect_articles (containers : List Container) (cfg : SourceConfig) :
    List Article :=
  containers.filterMap (fun c =>
    match c.titleText with
    | none => none
    | some title =>
      if !(title == "") && 15 < title.length && is_fire_related_advanced title then
        some
          { title := title
            link := (match c.linkHref with
                     | some h => urljoin cfg.url h
                     | none => cfg.url)
            summary := pyTake200 (c.summaryText.getD "")
            content := title ++ " " ++ pyTake200 (c.summaryText.getD "")
            published := "Recent"
            source := cfg.name
            confidence := 7 / 10
            ai_enhanced := false }
      else none)

/-- Normalised title used by the deduplicator: `article['title'].lower().strip()`. -/
def normTitle (a : Article) : String :=
  pyStrip (pyLower a.title)

/-- The duplicate test of `deduplicate_articles`:
`len(set(t.split()) & set(s.split())) / max(len(t.split()), len(s.split())) > 0.8`,
compared exactly over ℚ as `5·common > 4·max`.  The denominator counts the
split word *lists* (with multiplicity), while the numerator is the
cardinality of the word-*set* intersection, exactly as in the source.
(When both split lists are empty the source raises `ZeroDivisionError`;
this total model returns `false` there, and every theorem below that
could reach that case assumes nonempty word lists.) -/
def dupOverlapHigh (t s : String) : Bool :=
  let ws := pySplit t
  let vs := pySplit s
  let common := ((ws.dedup).filter (fun w => vs.contains w)).length
  4 * max ws.length vs.length < 5 * common

/-- Descending-confidence order used by the deduplicator's
`articles.sort(key=…confidence…, reverse=True)` (stable). -/
def confGE (a b : Article) : Prop :=
  b.confidence ≤ a.confidence

instance : DecidableRel confGE := fun a b =>
  inferInstanceAs (Decidable (b.confidence ≤ a.confidence))

instance : IsTotal Article confGE :=
  ⟨fun a b => (le_total b.confidence a.confidence).imp id id⟩

instance : IsTrans Article confGE :=
  ⟨fun _ _ _ h1 h2 => le_trans h2 h1⟩

/-- Stable descending-confidence sort (Python's stable `list.sort` with
`reverse=True`).  A stable sort is determined extensionally by being a
sorted permutation that preserves the relative order within every
equal-key class; all three properties are proved below
(`List.sorted_insertionSort`, `List.perm_insertionSort`,
`filter_sortByConfDesc`), so this coincides with CPython's sort. -/
def sortByConfDesc (l : List Article) : List Article :=
  List.insertionSort confGE l

/-- The greedy walk of `deduplicate_articles`: accept an article unless
its normalised title is a high-overlap duplicate of some seen title. -/
def dedupeGo : List Article → List String → List Article
  | [], _ => []
  | a :: rest, seen =>
    if seen.any (fun s => dupOverlapHigh (normTitle a) s) then dedupeGo rest seen
    else a :: dedupeGo rest (seen ++ [normTitle a])

/-- `deduplicate_articles` from `scraping_control`. -/
def deduplicate_articles (l : List Article) : List Article :=
  dedupeGo (sortByConfDesc l) []

/-- The AI-enhancement step of `scrape_custom_source`: the external
`analyze_batch` call either raises (the `except` branch keeps the
original articles unchanged) or returns enriched articles, which are then
filtered by `a.get('confidence', 0) >= 0.3`. -/
def applyAIFilter (articles : List Article) (outcome : Except String (List Article)) :
    List Article :=
  match outcome with
  | .error _ => articles
  | .ok enriched => enriched.filter (fun a => (3 : ℚ) / 10 ≤ a.confidence)

/-- One gazetteer entry of the `wilayas_map` dict in
`extract_location_from_title` (code, primary name, alternatives, Arabic names). -/
structure WilayaEntry where
  code : Nat
  primary : String
  alternatives : List String
  arabicNames : List String
deriving DecidableEq, Repr

/-- `[primary] + alternatives + arabic_names`. -/
def wilayaNames (e : WilayaEntry) : List String :=
  e.primary :: (e.alternatives ++ e.arabicNames)

/-- The `wilayas_map` table, in dict insertion order (codes 1..58). -/
def wilayas_map : List WilayaEntry :=
  [⟨1, "Adrar", ["Adrar"], ["أدرار"]⟩,
   ⟨2, "Chlef", ["Chlef", "El Asnam"], ["الشلف"]⟩,
   ⟨3, "Laghouat", ["Laghouat"], ["الأغواط"]⟩,
   ⟨4, "Oum El Bouaghi", ["Oum El Bouaghi", "Oum el Bouaghi"], ["أم البواقي"]⟩,
   ⟨5, "Batna", ["Batna"], ["باتنة"]⟩,
   ⟨6, "Béjaïa", ["Bejaia", "Béjaïa", "Bgayet"], ["بجاية"]⟩,
   ⟨7, "Biskra", ["Biskra"], ["بسكرة"]⟩,
   ⟨8, "Béchar", ["Bechar", "Béchar"], ["بشار"]⟩,
   ⟨9, "Blida", ["Blida"], ["البليدة"]⟩,
   ⟨10, "Bouira", ["Bouira"], ["البويرة"]⟩,
   ⟨11, "Tamanrasset", ["Tamanrasset", "Tamanghasset"], ["تمنراست"]⟩,
   ⟨12, "Tébessa", ["Tebessa", "Tébessa"], ["تبسة"]⟩,
   ⟨13, "Tlemcen", ["Tlemcen"], ["تلمسان"]⟩,
   ⟨14, "Tiaret", ["Tiaret"], ["تيارت"]⟩,
   ⟨15, "Tizi Ouzou", ["Tizi Ouzou", "Tizi-Ouzou"], ["تيزي وزو"]⟩,
   ⟨16, "Algiers", ["Alger", "Algiers", "Dzayer"], ["الجزائر"]⟩,
   ⟨17, "Djelfa", ["Djelfa"], ["الجلفة"]⟩,
   ⟨18, "Jijel", ["Jijel"], ["جيجل"]⟩,
   ⟨19, "Sétif", ["Setif", "Sétif"], ["سطيف"]⟩,
   ⟨20, "Saïda", ["Saida", "Saïda"], ["سعيدة"]⟩,
   ⟨21, "Skikda", ["Skikda"], ["سكيكدة"]⟩,
   ⟨22, "Sidi Bel Abbès", ["Sidi Bel Abbes", "Sidi Bel Abbès"], ["سيدي بلعباس"]⟩,
   ⟨23, "Annaba", ["Annaba"], ["عنابة"]⟩,
   ⟨24, "Guelma", ["Guelma"], ["قالمة"]⟩,
   ⟨25, "Constantine", ["Constantine"], ["قسنطينة"]⟩,
   ⟨26, "Médéa", ["Medea", "Médéa"], ["المدية"]⟩,
   ⟨27, "Mostaganem", ["Mostaganem"], ["مستغانم"]⟩,
   ⟨28, "M\x27Sila", ["Msila", "M\x27Sila"], ["المسيلة"]⟩,
   ⟨29, "Mascara", ["Mascara"], ["معسكر"]⟩,
   ⟨30, "Ouargla", ["Ouargla"], ["ورقلة"]⟩,
   ⟨31, "Oran", ["Oran", "Wahran"], ["وهران"]⟩,
   ⟨32, "El Bayadh", ["El Bayadh"], ["البيض"]⟩,
   ⟨33, "Illizi", ["Illizi"], ["إليزي"]⟩,
   ⟨34, "Bordj Bou Arréridj", ["Bordj Bou Arreridj", "BBA"], ["برج بوعريريج"]⟩,
   ⟨35, "Boumerdès", ["Boumerdes", "Boumerdès"], ["بومرداس"]⟩,
   ⟨36, "El Tarf", ["El Tarf"], ["الطارف"]⟩,
   ⟨37, "Tindouf", ["Tindouf"], ["تندوف"]⟩,
   ⟨38, "Tissemsilt", ["Tissemsilt"], ["تيسمسيلت"]⟩,
   ⟨39, "El Oued", ["El Oued"], ["الوادي"]⟩,
   ⟨40, "Khenchela", ["Khenchela"], ["خنشلة"]⟩,
   ⟨41, "Souk Ahras", ["Souk Ahras"], ["سوق أهراس"]⟩,
   ⟨42, "Tipaza", ["Tipaza"], ["تيبازة"]⟩,
   ⟨43, "Mila", ["Mila"], ["ميلة"]⟩,
   ⟨44, "Aïn Defla", ["Ain Defla", "Aïn Defla"], ["عين الدفلى"]⟩,
   ⟨45, "Naâma", ["Naama", "Naâma"], ["النعامة"]⟩,
   ⟨46, "Aïn Témouchent", ["Ain Temouchent", "Aïn Témouchent"], ["عين تموشنت"]⟩,
   ⟨47, "Ghardaïa", ["Ghardaia", "Ghardaïa"], ["غرداية"]⟩,
   ⟨48, "Relizane", ["Relizane"], ["غليزان"]⟩,
   ⟨49, "Timimoun", ["Timimoun"], ["تيميمون"]⟩,
   ⟨50, "Bordj Badji Mokhtar", ["Bordj Badji Mokhtar"], ["برج باجي مختار"]⟩,
   ⟨51, "Ouled Djellal", ["Ouled Djellal"], ["أولاد جلال"]⟩,
   ⟨52, "Béni Abbès", ["Beni Abbes", "Béni Abbès"], ["بني عباس"]⟩,
   ⟨53, "In Salah", ["In Salah"], ["عين صالح"]⟩,
   ⟨54, "In Guezzam", ["In Guezzam"], ["عين قزام"]⟩,
   ⟨55, "Touggourt", ["Touggourt"], ["تقرت"]⟩,
   ⟨56, "Djanet", ["Djanet"], ["جانت"]⟩,
   ⟨57, "El M\x27Ghair", ["El Mghair", "El M\x27Ghair"], ["المغير"]⟩,
   ⟨58, "El Meniaa", ["El Meniaa"], ["المنيعة"]⟩]

/-- Fire-context terms that add a confidence bonus in the location resolver. -/
def fire_context : List String :=
  ["incendie", "حريق", "fire", "feu", "pompier", "civil protection"]

/-- The exact value of the IEEE binary64 double produced by the source's
uncapped confidence chain `0.7`, `+= 0.2` (name in title, `t`), `+= 0.1`
(name is primary, `p`), `+= 0.1` (fire context, `f`), with every addition
rounded as Python rounds it.  Python floats are dyadic rationals, so each
result is represented exactly:
`0.7 = 3152519739159347/2^52`;
`0.7+0.2 = 0.8999999999999999 = 2026619832316723/2^51`;
`0.7+0.1 = 0.7999999999999999 = 7205759403792793/2^53`;
`0.7+0.2+0.1 = 0.9999999999999999 = 9007199254740991/2^53` (strictly
below 1.0, whichever of `p`/`f` contributed the `+0.1`);
`0.7+0.1+0.1 = 0.8999999999999999` (the same double as `0.7+0.2`);
`0.7+0.2+0.1+0.1 = 1.0999999999999999 = 4953959590107545/2^52`. -/
def pyFloatConf (t p f : Bool) : ℚ :=
  match t, p, f with
  | false, false, false => 3152519739159347 / 4503599627370496
  | true, false, false => 2026619832316723 / 2251799813685248
  | false, true, false => 7205759403792793 / 9007199254740992
  | false, false, true => 7205759403792793 / 9007199254740992
  | true, true, false => 9007199254740991 / 9007199254740992
  | true, false, true => 9007199254740991 / 9007199254740992
  | false, true, true => 2026619832316723 / 2251799813685248
  | true, true, true => 4953959590107545 / 4503599627370496

/-- The per-match confidence of `extract_location_from_title`
(lines 121-137 of `fires`): 0.7 base, +0.2 if the name occurs in the
title, +0.1 if it equals the primary name, +0.1 on fire context, then
`min(confidence, 1.0)` — all computed in IEEE binary64 arithmetic exactly
as Python computes it (`pyFloatConf` tabulates the rounded sums; only the
all-bonus sum 1.0999999999999999 reaches the cap, and in particular
0.7+0.2+0.1 is strictly below 1.0).  `nameL`/`primaryL` are the lowered
name and primary. -/
def matchConfidence (title text nameL primaryL : String) : ℚ :=
  min
    (pyFloatConf (strContains (pyLower title) nameL) (nameL == primaryL)
      (fire_context.any (fun ctx => strContains text ctx)))
    1

/-- `extract_location_from_title` from `fires`: scan every region and
every one of its names for a word-boundary match in the lowered
title+summary, keeping the strictly best confidence (first match wins on
ties). -/
def extract_location_from_title (title : String) (summary : String := "") :
    Option String × ℚ :=
  let text := pyLower (title ++ " " ++ summary)
  List.foldl
    (fun best e =>
      List.foldl
        (fun best name =>
          if wbMatchStr (pyLower name) text then
            let conf := matchConfidence title text (pyLower name) (pyLower e.primary)
            if best.2 < conf then (some e.primary, conf) else best
          else best)
        best (wilayaNames e))
    ((none : Option String), (0 : ℚ)) wilayas_map

/-- The `WILAYA_COORDINATES` dict: primary name ↦ (lat, lon, code). -/
def WILAYA_COORDINATES : List (String × ℚ × ℚ × Nat) :=
  [("Adrar", 27.9744, -0.2841, 1), ("Chlef", 36.1652, 1.3369, 2),
   ("Laghouat", 33.8008, 2.8644, 3), ("Oum El Bouaghi", 35.8753, 7.1135, 4),
   ("Batna", 35.5559, 6.1741, 5), ("Béjaïa", 36.7525, 5.0626, 6),
   ("Biskra", 34.8481, 5.7244, 7), ("Béchar", 31.6177, -2.2286, 8),
   ("Blida", 36.4203, 2.8277, 9), ("Bouira", 36.3736, 3.9030, 10),
   ("Tamanrasset", 22.7851, 5.5281, 11), ("Tébessa", 35.4040, 8.1244, 12),
   ("Tlemcen", 34.8786, -1.3150, 13), ("Tiaret", 35.3711, 1.3170, 14),
   ("Tizi Ouzou", 36.7118, 4.0435, 15), ("Algiers", 36.7538, 3.0588, 16),
   ("Djelfa", 34.6814, 3.2631, 17), ("Jijel", 36.8190, 5.7667, 18),
   ("Sétif", 36.1914, 5.4072, 19), ("Saïda", 34.8302, 0.1514, 20),
   ("Skikda", 36.8760, 6.9095, 21), ("Sidi Bel Abbès", 35.1977, -0.6388, 22),
   ("Annaba", 36.9000, 7.7667, 23), ("Guelma", 36.4612, 7.4286, 24),
   ("Constantine", 36.3650, 6.6147, 25), ("Médéa", 36.2639, 2.7531, 26),
   ("Mostaganem", 35.9315, 0.0890, 27), ("M\x27Sila", 35.7056, 4.5414, 28),
   ("Mascara", 35.3968, 0.1407, 29), ("Ouargla", 31.9539, 5.3249, 30),
   ("Oran", 35.6969, -0.6331, 31), ("El Bayadh", 33.6809, 1.0176, 32),
   ("Illizi", 26.5044, 8.4667, 33), ("Bordj Bou Arréridj", 36.0731, 4.7689, 34),
   ("Boumerdès", 36.7667, 3.4167, 35), ("El Tarf", 36.7672, 8.3137, 36),
   ("Tindouf", 27.6710, -8.1676, 37), ("Tissemsilt", 35.6075, 1.8108, 38),
   ("El Oued", 33.3564, 6.8531, 39), ("Khenchela", 35.4361, 7.1433, 40),
   ("Souk Ahras", 36.2864, 7.9511, 41), ("Tipaza", 36.5944, 2.4475, 42),
   ("Mila", 36.4503, 6.2647, 43), ("Aïn Defla", 36.2639, 1.9675, 44),
   ("Naâma", 33.2667, -0.3000, 45), ("Aïn Témouchent", 35.2981, -1.0411, 46),
   ("Ghardaïa", 32.4839, 3.6736, 47), ("Relizane", 35.7364, 0.5564, 48),
   ("Timimoun", 29.2631, 0.2406, 49), ("Bordj Badji Mokhtar", 21.3167, 0.9167, 50),
   ("Ouled Djellal", 34.4167, 5.0833, 51), ("Béni Abbès", 30.1167, -2.1667, 52),
   ("In Salah", 27.2167, 2.4667, 53), ("In Guezzam", 19.5667, 5.7667, 54),
   ("Touggourt", 33.1167, 6.0667, 55), ("Djanet", 24.5500, 9.4833, 56),
   ("El M\x27Ghair", 33.9500, 5.9167, 57), ("El Meniaa", 30.5833, 2.8833, 58)]

/-- Dict lookup `WILAYA_COORDINATES[w]` (keys are unique). -/
def coordLookup (w : String) : Option (ℚ × ℚ × Nat) :=
  (WILAYA_COORDINATES.find? (fun p => p.1 == w)).map (fun p => p.2)

def high_severity_keywords : List String :=
  ["evacuation", "évacuation", "إخلاء", "dead", "mort", "مات", "casualties", "victimes",
   "ضحايا", "destroyed", "détruit", "دمر", "emergency", "urgence", "طوارئ", "disaster",
   "catastrophe", "كارثة", "massive", "énorme", "هائل", "wildfire", "feu de forêt",
   "حريق غابة", "out of control", "hors de contrôle"]

def medium_severity_keywords : List String :=
  ["firefighters", "pompiers", "رجال الإطفاء", "aircraft", "avion", "طائرة", "helicopter",
   "hélicoptère", "مروحية", "spreading", "propagation", "انتشار", "threat", "menace",
   "تهديد", "risk", "risque", "خطر"]

/-- `determine_severity` from `fires`: high-severity keywords first, then
medium, default `"Medium"`. -/
def determine_severity (title summary : String) : String :=
  let text := pyLower (title ++ " " ++ summary)
  if high_severity_keywords.any (fun k => strContains text k) then "Critical"
  else if medium_severity_keywords.any (fun k => strContains text k) then "High"
  else "Medium"

def contained_keywords : List String :=
  ["contained", "maîtrisé", "تحت السيطرة", "extinguished", "éteint", "أطفئ"]

def under_control_keywords : List String :=
  ["under control", "sous contrôle", "تحت السيطرة"]

/-- `determine_status` from `fires`: containment keywords first, then
under-control, default `"Active"`. -/
def determine_status (title summary : String) : String :=
  let text := pyLower (title ++ " " ++ summary)
  if contained_keywords.any (fun k => strContains text k) then "Contained"
  else if under_control_keywords.any (fun k => strContains text k) then "Under Control"
  else "Active"

structure FireLocation where
  lat : ℚ
  lon : ℚ
  wilaya : String
  wilaya_code : Option Nat
deriving DecidableEq, Repr

/-- A fire incident as assembled by `get_active_fires`.  The synthesized
`id` (`fire-` plus a random uuid fragment) is nondeterministic I/O and is
not part of this deterministic embedding; no claim mentions it. -/
structure FireIncident where
  location : FireLocation
  timestamp : String
  severity : String
  status : String
  description : String
  link : String
  source : String
  confidence : ℚ
  fire_type : Option String
  casualties : Option String
  emergency_services : Option String
  affected_area : Option String
  cause : Option String
  weather_conditions : Option String
  evacuation_info : Option String
  damage_assessment : Option String
  date_mentioned : Option String
  ai_enhanced : Bool
deriving DecidableEq, Repr

/-- The default location of `get_active_fires` (Algiers centre,
`wilaya "Unknown"`, null code). -/
def defaultLocation : FireLocation :=
  ⟨36.7538, 3.0588, "Unknown", none⟩

/-- The per-article body of `get_active_fires`: resolve the location
(falling back to the default with confidence 0.1), classify severity and
status, copy AI fields, and assemble the incident.  `timestamp` is the
article's `published` field (every scraper-produced article carries one;
the `datetime.utcnow()` dict-default is nondeterministic I/O). -/
def buildIncident (a : Article) : FireIncident :=
  let r := extract_location_from_title a.title a.summary
  let lc : FireLocation × ℚ :=
    match r.1 with
    | some w =>
      (match coordLookup w with
       | some c => (⟨c.1, c.2.1, w, some c.2.2⟩, r.2)
       | none => (defaultLocation, 1 / 10))
    | none => (defaultLocation, 1 / 10)
  { location := lc.1
    timestamp := a.published
    severity := determine_severity a.title a.summary
    status := determine_status a.title a.summary
    description := a.title ++ ": " ++ a.summary
    link := a.link
    source := a.source
    confidence := lc.2
    fire_type := a.ai_result.bind AiResult.fire_type
    casualties := a.ai_result.bind AiResult.casualties
    emergency_services := a.ai_result.bind AiResult.emergency_services
    affected_area := a.ai_result.bind AiResult.affected_area
    cause := a.ai_result.bind AiResult.cause
    weather_conditions := a.ai_result.bind AiResult.weather_conditions
    evacuation_info := a.ai_result.bind AiResult.evacuation_info
    damage_assessment := a.ai_result.bind AiResult.damage_assessment
    date_mentioned := a.ai_result.bind AiResult.date_mentioned
    ai_enhanced := a.ai_enhanced }

/-- Descending order on the key `(confidence, timestamp)` used by the final
`incidents.sort(key=…, reverse=True)`: Python compares the tuples
lexicographically, strings by code points. -/
def incKeyGE (a b : FireIncident) : Prop :=
  b.confidence < a.confidence ∨ (b.confidence = a.confidence ∧ b.timestamp ≤ a.timestamp)

instance : DecidableRel incKeyGE := fun _a _b =>
  inferInstanceAs (Decidable (_ ∨ _))

instance : IsTotal FireIncident incKeyGE where
  total a b := by
    rcases lt_trichotomy b.confidence a.confidence with h | h | h
    · exact Or.inl (Or.inl h)
    · rcases le_total b.timestamp a.timestamp with ht | ht
      · exact Or.inl (Or.inr ⟨h, ht⟩)
      · exact Or.inr (Or.inr ⟨h.symm, ht⟩)
    · exact Or.inr (Or.inl h)

instance : IsTrans FireIncident incKeyGE where
  trans a b c hab hbc := by
    rcases hab with hab | ⟨hab, hab'⟩ <;> rcases hbc with hbc | ⟨hbc, hbc'⟩
    · exact Or.inl (lt_trans hbc hab)
    · exact Or.inl (hbc ▸ hab)
    · exact Or.inl (lt_of_lt_of_le hbc hab.le)
    · exact Or.inr ⟨hbc.trans hab, le_trans hbc' hab'⟩

/-- `get_active_fires` from `fires` (the deterministic core: the articles
are the scraper's output, passed in as data): build one incident per
article, then sort descending by `(confidence, timestamp)` (Python's
stable sort). -/
def get_active_fires (articles : List Article) : List FireIncident :=
  List.insertionSort incKeyGE (articles.map buildIncident)

/-- The pipeline of claim C2: JSON-LD extraction (with its relevance
gate), deduplication, no AI enrichment, then assembly and ranking. -/
def pipelineNoAI (scripts : List JsonLdScript) (cfg : SourceConfig) : List FireIncident :=
  get_active_fires (deduplicate_articles (extract_json_ld_articles scripts cfg))

/-! ### Characterisation of the location resolver (claims C3, C4) -/

/-- One update step of the resolver's running best: replace it exactly
when the new match's confidence is strictly higher. -/
def stepBest (best : Option String × ℚ) (m : String × ℚ) : Option String × ℚ :=
  if best.2 < m.2 then (some m.1, m.2) else best

/-- All word-boundary matches contributed by one region, in name
iteration order, paired with the region's primary name and the claimed
confidence formula. -/
def regionMatches (title text : String) (e : WilayaEntry) : List (String × ℚ) :=
  (wilayaNames e).filterMap (fun name =>
    if wbMatchStr (pyLower name) text then
      some (e.primary, matchConfidence title text (pyLower name) (pyLower e.primary))
    else none)

/-- All candidate matches of the location resolver, in region-major,
name-minor iteration order. -/
def matchList (title : String) (summary : String := "") : List (String × ℚ) :=
  wilayas_map.flatMap (regionMatches title (pyLower (title ++ " " ++ summary)))

/-- The highest match confidence in a list (0 when empty). -/
def maxConf (ms : List (String × ℚ)) : ℚ :=
  ms.foldr (fun m r => max m.2 r) 0

/-- The claim's description of the resolver result: the single
highest-confidence match, ties resolved in favour of the first match in
iteration order; `(none, 0)` when there is no match. -/
def specBest (ms : List (String × ℚ)) : Option String × ℚ :=
  match ms.find? (fun m => decide (maxConf ms ≤ m.2)) with
  | some m => (some m.1, m.2)
  | none => (none, 0)

/-- The confidence formula exactly as claim C3 words it: EXACT decimal
arithmetic 0.7 + 0.2 + 0.1 + 0.1, capped at 1.0 — so a title+fire-context
match sums to exactly 1.0.  For comparison with `matchConfidence`, which
reproduces the source's float rounding (0.7+0.2+0.1 = 0.9999999999999999
there). -/
def claimExactConfidence (title text nameL primaryL : String) : ℚ :=
  let c : ℚ := 7 / 10
  let c := if strContains (pyLower title) nameL then c + 2 / 10 else c
  let c := if nameL == primaryL then c + 1 / 10 else c
  let c := if fire_context.any (fun ctx => strContains text ctx) then c + 1 / 10 else c
  min c 1

/-- The claim's match list: as `matchList`, but carrying the claim's
exact-arithmetic confidences instead of the program's float values. -/
def claimMatchList (title : String) (summary : String := "") : List (String × ℚ) :=
  let text := pyLower (title ++ " " ++ summary)
  wilayas_map.flatMap (fun e => (wilayaNames e).filterMap (fun name =>
    if wbMatchStr (pyLower name) text then
      some (e.primary, claimExactConfidence title text (pyLower name) (pyLower e.primary))
    else none))

/-! ### Concrete fixtures used by the claim theorems below -/

/-- The evacuation terms of the high-severity keyword set (its first
three entries, one per supported language). -/
def evacuation_terms : List String :=
  ["evacuation", "évacuation", "إخلاء"]

def c2Script : JsonLdScript :=
  .single
    { atType := some "NewsArticle"
      headline := some "Incendie à Sétif : évacuation en cours"
      urlField := some "https://news.example/setif"
      description := some "" }

def c2Config : SourceConfig :=
  ⟨"Test Source", "https://news.example/"⟩

def c4Article : Article :=
  { title := "Breaking news report"
    link := ""
    summary := "general update"
    content := ""
    published := "Recent"
    source := "X"
    confidence := 1 / 2
    ai_enhanced := false }

def c8ArticleIso : Article :=
  { title := "zzz nothing here"
    link := ""
    summary := ""
    content := ""
    published := "2024-06-01 10:00"
    source := ""
    confidence := 1 / 2
    ai_enhanced := false }

def c8ArticleFree : Article :=
  { title := "zzz nothing here"
    link := ""
    summary := ""
    content := ""
    published := "Recent"
    source := ""
    confidence := 1 / 2
    ai_enhanced := false }

/-- The duplicate test exactly as the claim words it: the overlap ratio
`|A ∩ B| / max(|A|, |B|)` of the two title word SETS exceeds 0.8.  This
follows the claim's text, for comparison with `dupOverlapHigh`, whose
denominator (as in the source) counts the split word lists WITH
multiplicity. -/
def claimSetOverlapHigh (t s : String) : Bool :=
  let ws := (pySplit t).dedup
  let vs := (pySplit s).dedup
  let common := (ws.filter (fun w => vs.contains w)).length
  4 * max ws.length vs.length < 5 * common

/-- The claim's acceptance test: a candidate is kept iff its normalised
title is within the 0.8 overlap bound of every previously accepted
candidate's normalised title. -/
def acceptedOK (a : Article) (acc : List Article) : Bool :=
  acc.all (fun b => !dupOverlapHigh (normTitle a) (normTitle b))

/-- The claim-side greedy walk, carrying the accepted candidates
themselves rather than their seen titles. -/
def specGreedy : List Article → List Article → List Article
  | [], _ => []
  | a :: rest, acc =>
    if acceptedOK a acc then a :: specGreedy rest (acc ++ [a])
    else specGreedy rest acc

def c1DupSetA : Article :=
  { title := "fire fire alert downtown big"
    link := ""
    summary := ""
    content := ""
    published := ""
    source := ""
    confidence := 9 / 10
    ai_enhanced := false }

def c1DupSetB : Article :=
  { title := "fire alert downtown big"
    link := ""
    summary := ""
    content := ""
    published := ""
    source := ""
    confidence := 8 / 10
    ai_enhanced := false }

def c1WitHi : Article :=
  { title := "grand incendie forêt alger"
    link := ""
    summary := ""
    content := ""
    published := ""
    source := ""
    confidence := 9 / 10
    ai_enhanced := false }

def c1WitDup : Article :=
  { title := "alger forêt incendie grand"
    link := ""
    summary := ""
    content := ""
    published := ""
    source := ""
    confidence := 8 / 10
    ai_enhanced := false }

def c1WitNew : Article :=
  { title := "grand incendie forêt oran"
    link := ""
    summary := ""
    content := ""
    published := ""
    source := ""
    confidence := 8 / 10
    ai_enhanced := false }

def c9WitScript : JsonLdScript :=
  .single
    { atType := some "Article"
      headline := some "Incendie de forêt signalé près de Jijel"
      description := some "" }

def c9WitCfg : SourceConfig :=
  ⟨"S", "https://s.example/"⟩

def c9WitJsonArticle : Article :=
  { title := "Incendie de forêt signalé près de Jijel"
    link := "https://s.example/"
    summary := ""
    content := "Incendie de forêt signalé près de Jijel "
    published := "Recent"
    source := "S"
    confidence := 9 / 10
    ai_enhanced := false }

def c9WitContainer : Container :=
  ⟨some "Grand incendie dans une usine", none, none⟩

def c9WitAutoArticle : Article :=
  { title := "Grand incendie dans une usine"
    link := "https://s.example/"
    summary := ""
    content := "Grand incendie dans une usine "
    published := "Recent"
    source := "S"
    confidence := 7 / 10
    ai_enhanced := false }

def c9WitSelArticle : Article :=
  { title := "Incendie de brousse signalé dans la wilaya"
    link := "u"
    summary := "Fire-related news from S"
    published := "Recent"
    source := "S"
    confidence := 8 / 10
    ai_enhanced := false
    content := "Incendie de brousse signalé dans la wilaya" }

theorem le_maxConf : ∀ (ms : List (String × ℚ)), ∀ m ∈ ms, m.2 ≤ maxConf ms
  | _ :: rest, m, h => by
    rcases List.mem_cons.mp h with h | h
    · subst h; exact le_max_left _ _
    · exact le_trans (le_maxConf rest m h) (le_max_right _ _)

theorem foldl_stepBest_of_le :
    ∀ (ms : List (String × ℚ)) (acc : Option String × ℚ),
      (∀ m ∈ ms, m.2 ≤ acc.2) → List.foldl stepBest acc ms = acc
  | [], _, _ => rfl
  | m :: rest, acc, h => by
    have hm : ¬ acc.2 < m.2 := not_lt.mpr (h m (List.mem_cons_self m rest))
    simp only [List.foldl_cons, stepBest, if_neg hm]
    exact foldl_stepBest_of_le rest acc (fun x hx => h x (List.mem_cons_of_mem _ hx))

theorem specBest_cons_of_lt (m : String × ℚ) (rest : List (String × ℚ))
    (h : m.2 < maxConf rest) : specBest (m :: rest) = specBest rest := by
  have hmax : maxConf (m :: rest) = maxConf rest := max_eq_right h.le
  unfold specBest
  simp only [hmax]
  rw [List.find?_cons_of_neg]
  simp [not_le.mpr h]

theorem specBest_cons_of_ge (m : String × ℚ) (rest : List (String × ℚ))
    (h : maxConf rest ≤ m.2) : specBest (m :: rest) = (some m.1, m.2) := by
  unfold specBest
  rw [List.find?_cons_of_pos]
  simp only [maxConf, List.foldr_cons, decide_eq_true_eq]
  exact max_le le_rfl h

theorem foldl_stepBest_eq :
    ∀ (ms : List (String × ℚ)) (acc : Option String × ℚ),
      0 ≤ acc.2 → acc.2 < maxConf ms → List.foldl stepBest acc ms = specBest ms
  | [], acc, h0, hlt => absurd (lt_of_le_of_lt h0 hlt) (by simp [maxConf])
  | m :: rest, acc, h0, hlt => by
    rcases le_or_lt (maxConf rest) m.2 with hA | hB
    · have hmax : maxConf (m :: rest) = m.2 := max_eq_left hA
      have hacc : acc.2 < m.2 := hmax ▸ hlt
      rw [specBest_cons_of_ge m rest hA]
      simp only [List.foldl_cons, stepBest, if_pos hacc]
      exact foldl_stepBest_of_le rest (some m.1, m.2)
        (fun x hx => le_trans (le_maxConf rest x hx) hA)
    · have hmax : maxConf (m :: rest) = maxConf rest := max_eq_right hB.le
      rw [specBest_cons_of_lt m rest hB]
      simp only [List.foldl_cons]
      rcases lt_or_le acc.2 m.2 with hup | hkeep
      · have : stepBest acc m = (some m.1, m.2) := by simp [stepBest, if_pos hup]
        rw [this]
        exact foldl_stepBest_eq rest (some m.1, m.2) (le_trans h0 hup.le) hB
      · have : stepBest acc m = acc := by simp [stepBest, if_neg (not_lt.mpr hkeep)]
        rw [this]
        exact foldl_stepBest_eq rest acc h0 (hmax ▸ hlt)

theorem foldl_guard {α β γ : Type _} (g : γ → β → γ) (p : α → Bool) (v : α → β) :
    ∀ (l : List α) (acc : γ),
      List.foldl (fun b n => if p n then g b (v n) else b) acc l
        = List.foldl g acc (l.filterMap (fun n => if p n then some (v n) else none))
  | [], _ => rfl
  | n :: l, acc => by
    by_cases h : p n = true
    · simp only [List.foldl_cons, List.filterMap_cons, h, if_pos]
      exact foldl_guard g p v l (g acc (v n))
    · simp only [List.foldl_cons, List.filterMap_cons, h, if_neg, Bool.false_eq_true]
      exact foldl_guard g p v l acc

theorem foldl_flat {α β γ : Type _} (g : γ → β → γ) (f : α → List β) :
    ∀ (l : List α) (acc : γ),
      List.foldl (fun b e => List.foldl g b (f e)) acc l = List.foldl g acc (l.flatMap f)
  | [], _ => rfl
  | e :: l, acc => by
    simp only [List.foldl_cons, List.flatMap_cons, List.foldl_append]
    exact foldl_flat g f l (List.foldl g acc (f e))

/-- The inner name loop of the resolver is `stepBest` folded over that
region's match list. -/
theorem region_foldl (title text : String) (e : WilayaEntry) (acc : Option String × ℚ) :
    List.foldl
        (fun best name =>
          if wbMatchStr (pyLower name) text then
            let conf := matchConfidence title text (pyLower name) (pyLower e.primary)
            if best.2 < conf then (some e.primary, conf) else best
          else best)
        acc (wilayaNames e)
      = List.foldl stepBest acc (regionMatches title text e) :=
  foldl_guard stepBest (fun name => wbMatchStr (pyLower name) text)
    (fun name => (e.primary, matchConfidence title text (pyLower name) (pyLower e.primary)))
    (wilayaNames e) acc

/-- The resolver's nested loops compute the running strict maximum over
the flattened match list. -/
theorem extract_eq_foldl (title summary : String) :
    extract_location_from_title title summary
      = List.foldl stepBest ((none : Option String), (0 : ℚ)) (matchList title summary) := by
  rw [matchList, ← foldl_flat stepBest]
  exact List.foldl_ext _ _ _
    (fun acc e _ => region_foldl title (pyLower (title ++ " " ++ summary)) e acc)

theorem pyFloatConf_pos (t p f : Bool) : 0 < pyFloatConf t p f := by
  rcases t <;> rcases p <;> rcases f <;> norm_num [pyFloatConf]

theorem matchConfidence_pos (t x n p : String) : 0 < matchConfidence t x n p :=
  lt_min (pyFloatConf_pos _ _ _) one_pos

theorem matchConfidence_le_one (t x n p : String) : matchConfidence t x n p ≤ 1 :=
  min_le_right _ _

theorem matchList_conf_pos (title summary : String) :
    ∀ m ∈ matchList title summary, 0 < m.2 := by
  intro m hm
  obtain ⟨e, _, hm2⟩ := List.mem_flatMap.mp hm
  obtain ⟨n, _, hn⟩ := List.mem_filterMap.mp hm2
  by_cases hw : wbMatchStr (pyLower n) (pyLower (title ++ " " ++ summary)) = true
  · rw [if_pos hw] at hn
    cases hn
    exact matchConfidence_pos _ _ _ _
  · rw [if_neg hw] at hn
    cases hn

theorem matchList_conf_le_one (title summary : String) :
    ∀ m ∈ matchList title summary, m.2 ≤ 1 := by
  intro m hm
  obtain ⟨e, _, hm2⟩ := List.mem_flatMap.mp hm
  obtain ⟨n, _, hn⟩ := List.mem_filterMap.mp hm2
  by_cases hw : wbMatchStr (pyLower n) (pyLower (title ++ " " ++ summary)) = true
  · rw [if_pos hw] at hn
    cases hn
    exact matchConfidence_le_one _ _ _ _
  · rw [if_neg hw] at hn
    cases hn

/-- The location resolver returns exactly the claim's best match: the
highest-confidence word-boundary match over all regions and names, ties
resolved in favour of the first match in iteration order. -/
theorem extract_eq_specBest (title summary : String) :
    extract_location_from_title title summary = specBest (matchList title summary) := by
  rw [extract_eq_foldl]
  cases hms : matchList title summary with
  | nil => rfl
  | cons m rest =>
    apply foldl_stepBest_eq
    · norm_num
    · have hpos : 0 < m.2 :=
        matchList_conf_pos title summary m (hms ▸ List.mem_cons_self m rest)
      have hmx : m.2 ≤ maxConf (m :: rest) := le_maxConf _ m (List.mem_cons_self m rest)
      exact lt_of_lt_of_le hpos hmx

/-- C3 (amended): the location resolver's confidence for a match is the
IEEE binary64 value of 0.7 base, +0.2 if the matched name appears in the
title, +0.1 if it equals the region's primary name, +0.1 if the combined
text contains a fire-context term — each addition rounded as Python
rounds floats, then capped at 1.0 (this is `matchConfidence`, attached to
every entry of `matchList`); across all word-boundary matches over all
regions and names, the single highest-confidence match is returned, ties
(equal doubles) resolved in favour of the first match in region iteration
order (`specBest`).  With exact decimal arithmetic, as the claim words
the formula, the result differs on reachable inputs: see
`C3_counterexample`. -/
theorem C3_best_match_model (title summary : String) :
    extract_location_from_title title summary = specBest (matchList title summary) ∧
      (extract_location_from_title title summary).2 ≤ 1 := by
  refine ⟨extract_eq_specBest title summary, ?_⟩
  rw [extract_eq_specBest, specBest]
  cases hf : (matchList title summary).find?
      (fun m => decide (maxConf (matchList title summary) ≤ m.2)) with
  | none => norm_num
  | some m =>
    exact matchList_conf_le_one title summary m (List.mem_of_find?_eq_some hf)

/-- The claim as stated is false on the code: with the claim's exact
arithmetic, the title "Incendie à El Asnam et Batna" gives the Chlef
match (alias "El Asnam" in the title, fire context: 0.7+0.2+0.1 = 1.0)
and the Batna match (title + primary + fire context, capped to 1.0) equal
confidence, so the claimed first-region tie-break selects Chlef — but the
program's float sum for Chlef is 0.9999999999999999, strictly below
Batna's capped 1.0, and the code returns Batna. -/
theorem C3_counterexample :
    specBest (claimMatchList "Incendie à El Asnam et Batna" "") = (some "Chlef", 1) ∧
      extract_location_from_title "Incendie à El Asnam et Batna" ""
        = (some "Batna", 1) := by
  constructor <;> set_option maxRecDepth 10000 in with_unfolding_all decide

/-- C4: when no gazetteer name word-boundary-matches the text, the
resolver returns `(none, 0.0)` and the assembler falls back to the
default location (wilaya `"Unknown"`, Algiers coordinates, null code)
with confidence exactly 0.1. -/
theorem C4_no_match_default (a : Article)
    (h : matchList a.title a.summary = []) :
    extract_location_from_title a.title a.summary = (none, 0) ∧
      (buildIncident a).location = ⟨36.7538, 3.0588, "Unknown", none⟩ ∧
      (buildIncident a).confidence = 1 / 10 := by
  have hx : extract_location_from_title a.title a.summary = (none, 0) := by
    rw [extract_eq_specBest, h]; rfl
  refine ⟨hx, ?_, ?_⟩ <;> simp [buildIncident, hx, defaultLocation]

theorem C4_witness :
    extract_location_from_title c4Article.title c4Article.summary = (none, 0) ∧
      (buildIncident c4Article).location = ⟨36.7538, 3.0588, "Unknown", none⟩ ∧
      (buildIncident c4Article).confidence = 1 / 10 :=
  C4_no_match_default c4Article (by decide)

/-! ### End-to-end pipeline run (claim C2) -/

/-- C2: one JSON-LD article titled "Incendie à Sétif : évacuation en
cours" fed through extraction, relevance filtering, deduplication and
assembly (no AI enrichment) yields exactly one incident located in
Sétif, severity Critical, status Active, with confidence 1 ≥ 0.9. -/
theorem C2_end_to_end :
    (pipelineNoAI [c2Script] c2Config).map
        (fun i => (i.location.wilaya, i.severity, i.status, i.confidence))
      = [("Sétif", "Critical", "Active", (1 : ℚ))] ∧ (9 : ℚ) / 10 ≤ 1 := by
  constructor
  · set_option maxRecDepth 10000 in with_unfolding_all decide
  · norm_num

/-! ### Severity and status classifiers (claims C5, C10) -/

/-- C5: any text containing an evacuation term classifies as Critical
regardless of which medium-tier terms are present; the high set is
checked before the medium set and the first matching tier wins, with
Medium as the default when no tier matches. -/
theorem C5_evacuation_critical :
    (∀ title summary : String,
        evacuation_terms.any
            (fun k => strContains (pyLower (title ++ " " ++ summary)) k) = true →
          determine_severity title summary = "Critical") ∧
      (∀ title summary : String,
        high_severity_keywords.any
            (fun k => strContains (pyLower (title ++ " " ++ summary)) k) = false →
          medium_severity_keywords.any
              (fun k => strContains (pyLower (title ++ " " ++ summary)) k) = true →
            determine_severity title summary = "High") ∧
      (∀ title summary : String,
        high_severity_keywords.any
            (fun k => strContains (pyLower (title ++ " " ++ summary)) k) = false →
          medium_severity_keywords.any
              (fun k => strContains (pyLower (title ++ " " ++ summary)) k) = false →
            determine_severity title summary = "Medium") := by
  refine ⟨?_, ?_, ?_⟩
  · intro title summary h
    obtain ⟨k, hk, hc⟩ := List.any_eq_true.mp h
    have hk' : k ∈ high_severity_keywords := by
      fin_cases hk <;> decide
    have hhigh : high_severity_keywords.any
        (fun k => strContains (pyLower (title ++ " " ++ summary)) k) = true :=
      List.any_eq_true.mpr ⟨k, hk', hc⟩
    simp [determine_severity, hhigh]
  · intro title summary hh hm
    simp [determine_severity, hh, hm]
  · intro title summary hh hm
    simp [determine_severity, hh, hm]

theorem C5_witness :
    determine_severity "Ordre d\x27évacuation donné, pompiers et hélicoptères mobilisés" ""
        = "Critical" ∧
      determine_severity "Les pompiers surveillent la zone" "" = "High" ∧
      determine_severity "Rien de notable dans la region" "" = "Medium" :=
  ⟨C5_evacuation_critical.1 _ "" (by decide),
   C5_evacuation_critical.2.1 _ "" (by decide) (by decide),
   C5_evacuation_critical.2.2 _ "" (by decide) (by decide)⟩

/-- C10: the Arabic phrase "تحت السيطرة" appears in both the
contained-tier and under-control-tier lists; the contained tier is
checked first, so such text always classifies Contained, and the status
Under Control is only reachable via the English or French phrases. -/
theorem C10_arabic_contained :
    (∀ title summary : String,
        strContains (pyLower (title ++ " " ++ summary)) "تحت السيطرة" = true →
          determine_status title summary = "Contained") ∧
      (∀ title summary : String,
        determine_status title summary = "Under Control" →
          strContains (pyLower (title ++ " " ++ summary)) "under control" = true ∨
            strContains (pyLower (title ++ " " ++ summary)) "sous contrôle" = true) := by
  constructor
  · intro title summary h
    have hc : contained_keywords.any
        (fun k => strContains (pyLower (title ++ " " ++ summary)) k) = true :=
      List.any_eq_true.mpr ⟨"تحت السيطرة", by decide, h⟩
    simp [determine_status, hc]
  · intro title summary h
    by_cases hc : contained_keywords.any
        (fun k => strContains (pyLower (title ++ " " ++ summary)) k) = true
    · exfalso
      simp [determine_status, hc] at h
    · by_cases hu : under_control_keywords.any
          (fun k => strContains (pyLower (title ++ " " ++ summary)) k) = true
      · obtain ⟨k, hk, hck⟩ := List.any_eq_true.mp hu
        have : k = "under control" ∨ k = "sous contrôle" ∨ k = "تحت السيطرة" := by
          fin_cases hk <;> simp
        rcases this with rfl | rfl | rfl
        · exact Or.inl hck
        · exact Or.inr hck
        · exact absurd (List.any_eq_true.mpr ⟨"تحت السيطرة", by decide, hck⟩) hc
      · exfalso
        simp [determine_status, hc, hu] at h

theorem C10_witness :
    determine_status "الحريق تحت السيطرة الآن" "" = "Contained" ∧
      (strContains (pyLower ("feu sous contrôle" ++ " " ++ "")) "under control" = true ∨
        strContains (pyLower ("feu sous contrôle" ++ " " ++ "")) "sous contrôle" = true) :=
  ⟨C10_arabic_contained.1 _ "" (by decide),
   C10_arabic_contained.2 "feu sous contrôle" "" (by decide)⟩

/-! ### Relevance scorer properties (claim C6) -/

/-- C6: the relevance predicate returns false for every text shorter than
10 characters regardless of its score; the French fire sentence is
relevant; the box-office idiom is rejected (its exclusion term outweighs
the lone critical keyword against the threshold of 3). -/
theorem C6_relevance :
    (∀ text : String, text.length < 10 → is_fire_related_advanced text = false) ∧
      is_fire_related_advanced "Un grand incendie a détruit plusieurs maisons" = true ∧
      is_fire_related_advanced "The movie was a box-office fire" = false := by
  refine ⟨?_, by decide, by decide⟩
  intro t h
  unfold is_fire_related_advanced
  rw [if_pos]
  simp [h]

theorem C6_witness : is_fire_related_advanced "feu" = false :=
  C6_relevance.1 "feu" (by decide)

/-! ### AI enrichment fallback (claim C7) -/

/-- C7: when the enrichment call raises, the candidate sequence is
returned exactly as it was; when it succeeds, a candidate survives the
post-enrichment filter iff its confidence is at least 0.3. -/
theorem C7_ai_fallback :
    (∀ (articles : List Article) (e : String),
        applyAIFilter articles (Except.error e) = articles) ∧
      (∀ (articles enriched : List Article) (a : Article),
        a ∈ applyAIFilter articles (Except.ok enriched) ↔
          a ∈ enriched ∧ (3 : ℚ) / 10 ≤ a.confidence) := by
  refine ⟨fun _ _ => rfl, fun articles enriched a => ?_⟩
  simp [applyAIFilter, List.mem_filter]

/-! ### Candidate title-length invariant (claim C9) -/

theorem length_ge_of_fire_related {t : String} (h : is_fire_related_advanced t = true) :
    10 ≤ t.length := by
  by_contra hlen
  have hl : t.length < 10 := not_le.mp hlen
  simp [is_fire_related_advanced, hl] at h

theorem dropWhile_dropWhile {α : Type _} (p : α → Bool) (l : List α) :
    (l.dropWhile p).dropWhile p = l.dropWhile p := by
  induction l with
  | nil => rfl
  | cons c cs ih =>
    by_cases h : p c = true
    · simp [List.dropWhile_cons, h, ih]
    · simp [List.dropWhile_cons, h]

theorem head_dropWhile_false {α : Type _} (p : α → Bool) :
    ∀ (l : List α) (c : α) (cs : List α), l.dropWhile p = c :: cs → p c = false
  | [], _, _, h => by cases h
  | a :: l, c, cs, h => by
    rw [List.dropWhile_cons] at h
    split at h
    · exact head_dropWhile_false p l c cs h
    · rename_i hp
      injection h with h1 h2
      subst h1
      cases hb : p a
      · rfl
      · exact absurd hb hp

/-- Python's `str.strip` is idempotent: stripping a stripped string is a
no-op (the stripped string starts and ends with non-whitespace or is
empty). -/
theorem pyStrip_idem (s : String) : pyStrip (pyStrip s) = pyStrip s := by
  unfold pyStrip
  congr 1
  show ((((((s.toList.dropWhile isPySpace).reverse.dropWhile
      isPySpace).reverse).dropWhile isPySpace).reverse).dropWhile isPySpace).reverse = _
  set A := s.toList.dropWhile isPySpace with hA
  set B := A.reverse.dropWhile isPySpace with hB
  have hstep1 : B.reverse.dropWhile isPySpace = B.reverse := by
    cases hZ : B.reverse with
    | nil => rfl
    | cons c cs =>
      have hsuffix : B <:+ A.reverse := hB ▸ List.dropWhile_suffix isPySpace
      have hprefix : B.reverse <+: A := by
        have h2 := hsuffix.reverse
        rwa [List.reverse_reverse] at h2
      obtain ⟨t, ht⟩ := hprefix
      have hAc : s.toList.dropWhile isPySpace = c :: (cs ++ t) := by
        rw [← hA, ← ht, hZ]
        rfl
      have hc : isPySpace c = false := head_dropWhile_false isPySpace s.toList c _ hAc
      simp [List.dropWhile_cons, hc]
  rw [hstep1, List.reverse_reverse, dropWhile_dropWhile]

/-- C9: every candidate produced by any of the three extraction
strategies has a title of at least 10 characters (hence non-empty).
JSON-LD titles pass the relevance scorer's 10-character gate; heuristic
titles must exceed 15 characters; selector candidates run the 20-character
gate on the node text, which `text(strip=True)` already returns stripped,
so the stored (re-stripped) title is that same text verbatim
(`pyStrip_idem`). -/
theorem C9_title_length :
    (∀ (scripts : List JsonLdScript) (cfg : SourceConfig) (a : Article),
        a ∈ extract_json_ld_articles scripts cfg → 10 ≤ a.title.length) ∧
      (∀ (containers : List Container) (cfg : SourceConfig) (a : Article),
        a ∈ auto_detect_articles containers cfg → 10 ≤ a.title.length) ∧
      (∀ (texts : List (String × String)) (src : String) (a : Article),
        a ∈ selectorScan texts src → 10 ≤ a.title.length) := by
  refine ⟨?_, ?_, ?_⟩
  · intro scripts cfg a ha
    obtain ⟨s, _, hf⟩ := List.mem_filterMap.mp ha
    rcases s with _ | d | ds
    · simp [] at hf
    · dsimp only at hf
      split at hf
      · split at hf
        · rename_i hcond
          cases hf
          exact length_ge_of_fire_related (Bool.and_elim_right hcond)
        · cases hf
      · cases hf
    · dsimp only at hf
      split at hf
      · split at hf
        · rename_i hcond
          cases hf
          exact length_ge_of_fire_related (Bool.and_elim_right hcond)
        · cases hf
      · cases hf
  · intro containers cfg a ha
    obtain ⟨c, _, hf⟩ := List.mem_filterMap.mp ha
    split at hf
    · cases hf
    · split at hf
      · rename_i title heq hcond
        cases hf
        simp only [Bool.and_eq_true, decide_eq_true_eq] at hcond
        have h15 : 15 < title.length := hcond.1.2
        show 10 ≤ title.length
        omega
      · cases hf
  · intro texts src a ha
    obtain ⟨p, hp, hf⟩ := List.mem_filterMap.mp ha
    dsimp only at hf
    split at hf
    · rename_i hc1
      rcases hobj : create_article_object (pyStrip p.1) p.2 src with _ | b
      · simp only [hobj] at hf
        cases hf
      · simp only [hobj] at hf
        split at hf
        · have htitle : b.title = pyStrip (pyStrip p.1) := by
            rw [create_article_object] at hobj
            split at hobj
            · cases hobj
            · cases hobj
              rfl
          have hba : b = a := Option.some.inj hf
          simp only [Bool.and_eq_true, decide_eq_true_eq] at hc1
          obtain ⟨-, h20⟩ := hc1
          rw [← hba, htitle, pyStrip_idem]
          omega
        · cases hf
    · cases hf

theorem C9_witness :
    10 ≤ c9WitJsonArticle.title.length ∧ 10 ≤ c9WitAutoArticle.title.length ∧
      10 ≤ c9WitSelArticle.title.length :=
  ⟨C9_title_length.1 [c9WitScript] c9WitCfg c9WitJsonArticle (by with_unfolding_all decide),
   C9_title_length.2.1 [c9WitContainer] c9WitCfg c9WitAutoArticle
     (by with_unfolding_all decide),
   C9_title_length.2.2 [("Incendie de brousse signalé dans la wilaya", "u")] "S"
     c9WitSelArticle (by with_unfolding_all decide)⟩

/-! ### Deduplicator characterisation (claim C1) -/

theorem any_normTitle_map (a : Article) (acc : List Article) :
    (acc.map normTitle).any (fun s => dupOverlapHigh (normTitle a) s)
      = !(acceptedOK a acc) := by
  induction acc with
  | nil => rfl
  | cons b acc ih =>
    simp only [List.map_cons, List.any_cons, acceptedOK, List.all_cons, Bool.not_and,
      Bool.not_not] at *
    rw [ih]

theorem dedupeGo_eq_specGreedy :
    ∀ (l acc : List Article), dedupeGo l (acc.map normTitle) = specGreedy l acc
  | [], _ => rfl
  | a :: rest, acc => by
    have hmap : (acc.map normTitle) ++ [normTitle a] = (acc ++ [a]).map normTitle := by
      simp
    cases h : acceptedOK a acc with
    | true =>
      simp only [dedupeGo, specGreedy, any_normTitle_map, h, Bool.not_true,
        Bool.false_eq_true, if_false, if_true, hmap]
      exact congrArg (a :: ·) (dedupeGo_eq_specGreedy rest (acc ++ [a]))
    | false =>
      simp only [dedupeGo, specGreedy, any_normTitle_map, h, Bool.not_false, if_true,
        Bool.false_eq_true, if_false]
      exact dedupeGo_eq_specGreedy rest acc

theorem filter_orderedInsert (q : ℚ) (a : Article) :
    ∀ l : List Article,
      (List.orderedInsert confGE a l).filter (fun x => decide (x.confidence = q))
        = if a.confidence = q then
            a :: l.filter (fun x => decide (x.confidence = q))
          else l.filter (fun x => decide (x.confidence = q))
  | [] => by
    by_cases ha : a.confidence = q <;> simp [List.orderedInsert, List.filter, ha]
  | b :: l => by
    by_cases hr : confGE a b
    · simp only [List.orderedInsert, if_pos hr, List.filter_cons]
      by_cases ha : a.confidence = q
      · simp [ha]
      · simp [ha]
    · have hba : a.confidence < b.confidence := not_le.mp hr
      simp only [List.orderedInsert, if_neg hr, List.filter_cons]
      by_cases ha : a.confidence = q
      · have hbq : ¬ (b.confidence = q) := (ne_of_gt (ha ▸ hba))
        rw [filter_orderedInsert q a l]
        simp [ha, hbq]
      · rw [filter_orderedInsert q a l]
        simp [ha]

theorem filter_sortByConfDesc (q : ℚ) :
    ∀ l : List Article,
      (sortByConfDesc l).filter (fun x => decide (x.confidence = q))
        = l.filter (fun x => decide (x.confidence = q))
  | [] => rfl
  | a :: l => by
    show (List.orderedInsert confGE a (sortByConfDesc l)).filter _ = _
    rw [filter_orderedInsert, filter_sortByConfDesc q l]
    by_cases ha : a.confidence = q
    · simp [List.filter_cons, ha]
    · simp [List.filter_cons, ha]

/-- C1 (amended): the deduplicator first sorts by descending prior
confidence — stably: it is a permutation, pairwise descending, and
preserves the input order within every confidence class — and then
accepts a candidate iff, for every previously accepted candidate, the
source's overlap measure (word-set intersection over the maximum split
word COUNT) is at most 0.8; consequently, of two candidates whose
overlap measure exceeds 0.8 only the higher-confidence one survives,
while two candidates at or below the bound (e.g. 50% overlap) both
survive. -/
theorem C1_dedupe_model :
    (∀ l : List Article, deduplicate_articles l = specGreedy (sortByConfDesc l) []) ∧
      (∀ l : List Article,
        (sortByConfDesc l).Sorted (fun a b => b.confidence ≤ a.confidence)) ∧
      (∀ l : List Article, (sortByConfDesc l).Perm l) ∧
      (∀ (l : List Article) (q : ℚ),
        (sortByConfDesc l).filter (fun x => decide (x.confidence = q))
          = l.filter (fun x => decide (x.confidence = q))) ∧
      (∀ a b : Article, b.confidence < a.confidence →
        dupOverlapHigh (normTitle b) (normTitle a) = true →
          deduplicate_articles [b, a] = [a]) ∧
      (∀ a b : Article, b.confidence < a.confidence →
        pySplit (normTitle a) ≠ [] →
        dupOverlapHigh (normTitle b) (normTitle a) = false →
          deduplicate_articles [b, a] = [a, b]) := by
  refine ⟨?_, ?_, ?_, ?_, ?_, ?_⟩
  · intro l
    exact dedupeGo_eq_specGreedy (sortByConfDesc l) []
  · intro l
    exact List.sorted_insertionSort confGE l
  · intro l
    exact List.perm_insertionSort confGE l
  · intro l q
    exact filter_sortByConfDesc q l
  · intro a b hlt hdup
    have hsort : sortByConfDesc [b, a] = [a, b] := by
      unfold sortByConfDesc
      simp only [List.insertionSort, List.orderedInsert]
      rw [if_neg (show ¬ confGE b a from not_le.mpr hlt)]
    unfold deduplicate_articles
    rw [hsort]
    simp [dedupeGo, hdup]
  · intro a b hlt _hw hdup
    have hsort : sortByConfDesc [b, a] = [a, b] := by
      unfold sortByConfDesc
      simp only [List.insertionSort, List.orderedInsert]
      rw [if_neg (show ¬ confGE b a from not_le.mpr hlt)]
    unfold deduplicate_articles
    rw [hsort]
    simp [dedupeGo, hdup]

/-- The claim as stated is false on the code: these two titles have
identical word SETS, so the claimed set-based ratio is 1 > 0.8 and the
claim predicts only the higher-confidence candidate survives — yet the
deduplicator keeps both, because its denominator counts the split word
list of the first title with multiplicity (5), giving 4/5 ≤ 0.8. -/
theorem C1_counterexample :
    claimSetOverlapHigh (normTitle c1DupSetB) (normTitle c1DupSetA) = true ∧
      deduplicate_articles [c1DupSetA, c1DupSetB] = [c1DupSetA, c1DupSetB] := by
  constructor
  · decide
  · with_unfolding_all decide

theorem C1_witness :
    deduplicate_articles [c1WitDup, c1WitHi] = [c1WitHi] ∧
      deduplicate_articles [c1WitNew, c1WitHi] = [c1WitHi, c1WitNew] :=
  ⟨C1_dedupe_model.2.2.2.2.1 c1WitHi c1WitDup (by with_unfolding_all decide) (by decide),
   C1_dedupe_model.2.2.2.2.2 c1WitHi c1WitNew (by with_unfolding_all decide) (by decide)
     (by decide)⟩

/-! ### Final ranking (claim C8) -/

/-- C8: the assembled output is sorted descending by the pair
`(confidence, timestamp)` — confidence dominates, the timestamp is a
secondary key compared as an opaque string — and is a permutation of the
per-article incidents; concretely, with equal confidences the free-text
timestamp `"Recent"` sorts before the ISO timestamp by plain string
comparison. -/
theorem C8_output_sorted :
    (∀ articles : List Article,
        (get_active_fires articles).Sorted
            (fun a b => b.confidence < a.confidence ∨
              (b.confidence = a.confidence ∧ b.timestamp ≤ a.timestamp)) ∧
          (get_active_fires articles).Perm (articles.map buildIncident)) ∧
      (get_active_fires [c8ArticleIso, c8ArticleFree]).map FireIncident.timestamp
        = ["Recent", "2024-06-01 10:00"] := by
  refine ⟨fun articles => ⟨?_, ?_⟩, ?_⟩
  · exact List.sorted_insertionSort incKeyGE (articles.map buildIncident)
  · exact List.perm_insertionSort incKeyGE (articles.map buildIncident)
  · set_option maxRecDepth 10000 in with_unfolding_all decide

